import Mathlib

/-!
Shallow embedding of the asset-crawler ingestion pipeline
(`src/tasks/tasks.service.ts`).

Strings are modelled as lists of characters (`Str`).  JavaScript numbers
are modelled as rationals (`ℚ`), with `Option ℚ` standing for a value
that may be `NaN`/`undefined`/`null`.  Each crawler method is embedded as
a total function from its external inputs (HTTP responses, rendered page
contents, browser-launch outcomes) to the list of spreadsheet writes it
performs; totality models the fact that every method catches its own
errors.  Browser and page resources are tracked by an explicit state
`ResState`.
-/

/-- Character-list model of JavaScript strings. -/
abbrev Str := List Char

/-- Model of `String.prototype.trim`: drop whitespace at both ends. -/
def jsTrim (s : Str) : Str :=
  ((s.dropWhile Char.isWhitespace).reverse.dropWhile Char.isWhitespace).reverse

/-- Model of `s.replace(/c/g, '')` for a single character `c`:
remove every occurrence of that character. -/
def removeChar (c : Char) (s : Str) : Str := s.filter (fun x => x ≠ c)

/-- Model of `s.replace(pat, '')` with a plain-string pattern:
remove the first occurrence of `pat` (JavaScript `replace` with a string
argument replaces only the first match). -/
def removeFirst (pat : Str) : Str → Str
  | [] => []
  | c :: rest =>
    if pat.isPrefixOf (c :: rest) then (c :: rest).drop pat.length
    else c :: removeFirst pat rest

/-- Model of JavaScript `s.includes(pat)` / `/pat/.test(s)` for a plain
pattern: `pat` occurs as a contiguous substring of `s`. -/
def isSubstr (pat : Str) : Str → Bool
  | [] => pat.isEmpty
  | c :: rest => pat.isPrefixOf (c :: rest) || isSubstr pat rest

/-- Numeric value of a digit string (most significant first). -/
def digitsVal (s : Str) : ℕ :=
  s.foldl (fun acc c => 10 * acc + (c.toNat - '0'.toNat)) 0

/-- The syntactic pieces of a JavaScript decimal literal: sign, value of
the integer digits, value of the fraction digits, number of fraction
digits. -/
structure NumParts where
  neg : Bool
  intPart : ℕ
  fracPart : ℕ
  fracLen : ℕ
deriving DecidableEq, Repr

/-- Parsing stage of JavaScript `Number(s)` on the fragment relevant
here: optional sign, decimal digits with at most one `'.'`.  A
whitespace-only string parses as `0` (as in JS); anything that does not
fit this decimal shape (stray letters, a second dot, a lone dot) is
`NaN`, modelled as `none`.  Exponent/hex/`Infinity` forms do not occur in
this program's inputs and are also mapped to `none`. -/
def jsParse (s : Str) : Option NumParts :=
  let t := jsTrim s
  if t.isEmpty then some ⟨false, 0, 0, 0⟩
  else
    let neg : Bool := t.head? = some '-'
    let u : Str :=
      if t.head? = some '-' ∨ t.head? = some '+' then t.tail else t
    let ip := u.takeWhile Char.isDigit
    let rest := u.dropWhile Char.isDigit
    match rest with
    | [] => if ip.isEmpty then none else some ⟨neg, digitsVal ip, 0, 0⟩
    | '.' :: fp =>
      if fp.all Char.isDigit && !(ip.isEmpty && fp.isEmpty) then
        some ⟨neg, digitsVal ip, digitsVal fp, fp.length⟩
      else none
    | _ => none

/-- Rational value of parsed decimal pieces. -/
def partsVal (p : NumParts) : ℚ :=
  (if p.neg then -1 else 1) * ((p.intPart : ℚ) + (p.fracPart : ℚ) / 10 ^ p.fracLen)

/-- Model of JavaScript `Number(s)` (`none` = `NaN`). -/
def jsNumber (s : Str) : Option ℚ := (jsParse s).map partsVal

/-- Model of `Math.round`: nearest integer, halves toward positive
infinity. -/
def mathRound (q : ℚ) : ℤ := ⌊q + 1 / 2⌋

/-- A value sent to a spreadsheet cell: either a string the code built
itself, or a number the code passes through `.toString()`. -/
inductive WVal where
  | str : Str → WVal
  | num : ℚ → WVal
deriving DecidableEq, Repr

/-- One `sheets.spreadsheets.values.update` call: target sheet, target
cell, value. -/
structure SheetWrite where
  sheet : Str
  cell : Str
  val : WVal
deriving DecidableEq, Repr

/-- Model of `updateSheetCell`'s value pre-formatting:
`value.replaceAll('.', ',').trim()`. -/
def sinkFormat (v : Str) : Str :=
  jsTrim (v.map (fun c => if c = '.' then ',' else c))

/-- Model of `updateSheetCell sheet cell value`: one write of the
formatted value to `sheet!cell`. -/
def updateSheetCell (sheet cell : Str) (value : Str) : SheetWrite :=
  ⟨sheet, cell, WVal.str (sinkFormat value)⟩

/-! ## ETF adapter (`crawlE1VFVN30Price`) -/

/-- The close-price series of the DNSE chart response.  The code only
reads field `c` (the other parallel arrays `s,h,l,o,t,v` are never
touched); `c` is `Option`al because the runtime value may lack it
(`!response.data.c` check). -/
structure DnseData where
  c : Option (List ℚ)
deriving DecidableEq

/-- An axios-style HTTP response: the body lives in `.data`, which may be
absent at runtime (`!response.data` check). -/
structure HttpResp (α : Type) where
  data : Option α
deriving DecidableEq

/-- The unit-correction heuristic of `crawlE1VFVN30Price`:
`if (rawStockPrice < 1000) rawStockPrice = Math.round(rawStockPrice * 1000)`. -/
def etfCorrect (q : ℚ) : ℚ :=
  if q < 1000 then ((mathRound (q * 1000) : ℤ) : ℚ) else q

/-- Model of `crawlE1VFVN30Price`: from the (possibly absent) HTTP
response to the list of sheet writes.  A `none` response, absent `data`,
absent or empty close series each log an error and return without
writing; otherwise the last close price, unit-corrected, is written to
`Detail!E18` via `updateE1VFVN30Cell`. -/
def crawlE1VFVN30Price (resp : Option (HttpResp DnseData)) : List SheetWrite :=
  match resp with
  | none => []
  | some r =>
    match r.data with
    | none => []
    | some d =>
      match d.c with
      | none => []
      | some cs =>
        if cs.isEmpty then []
        else
          [⟨"Detail".data, "E18".data, WVal.num (etfCorrect (cs.getLast?.getD 0))⟩]

/-- The degenerate-response test of `crawlE1VFVN30Price`: response
absent, body absent, or close series absent/empty. -/
def dnseDegenerate : Option (HttpResp DnseData) → Bool
  | none => true
  | some r =>
    match r.data with
    | none => true
    | some d =>
      match d.c with
      | none => true
      | some cs => cs.isEmpty

/-! ## DOJI gold adapter (`crawlDojiHungThinhVuong9999GoldRingPrice`) -/

/-- One rendered `<tr>` of the DOJI price table: its `innerText` and the
`innerText` of each of its `<td>` cells. -/
structure DojiRow where
  text : Str
  cells : List Str
deriving DecidableEq

/-- First accepted label variant. -/
def dojiLabel1 : Str := "Hưng Thịnh Vượng".data

/-- Second accepted label variant. -/
def dojiLabel2 : Str := "Nhẫn Tròn 9999".data

/-- The row test of the `page.evaluate` loop:
`text.includes('Hưng Thịnh Vượng') || text.includes('Nhẫn Tròn 9999')`. -/
def rowMatches (r : DojiRow) : Bool :=
  isSubstr dojiLabel1 r.text || isSubstr dojiLabel2 r.text

/-- The `page.evaluate` scan of `crawlDojiHungThinhVuong9999GoldRingPrice`:
walk the rows in document order; on a label match, if the row has at
least 3 cells take `cells[1].innerText.trim()` and stop (`break`);
a label match with fewer than 3 cells does not stop the scan. -/
def findBuyPrice : List DojiRow → Option Str
  | [] => none
  | r :: rs =>
    if rowMatches r && decide (3 ≤ r.cells.length) then
      (r.cells.get? 1).map jsTrim
    else findBuyPrice rs

/-- Following the claim's words, for comparison with `findBuyPrice`: the
first row in document order whose text contains either label is
authoritative — its adjacent cell's text is extracted and all later
matching rows are ignored (no condition on the row's cell count). -/
def findBuyPriceClaimed (rows : List DojiRow) : Option Str :=
  (rows.find? rowMatches).bind (fun r => (r.cells.get? 1).map jsTrim)

/-- Separator stripping applied to the DOJI buy price before the sheet
update: `.replace(/,/g, '').replaceAll('.', '')`. -/
def dojiStrip (s : Str) : Str := removeChar '.' (removeChar ',' s)

/-- The write phase of the DOJI crawl given the rendered rows: a truthy
(non-empty) extracted price is stripped of separators and written to
`Detail!E2` via `updateGoldCell`; otherwise only a warning is logged. -/
def dojiWrites (rows : List DojiRow) : List SheetWrite :=
  match findBuyPrice rows with
  | none => []
  | some bp =>
    if bp.isEmpty then [] else [⟨"Detail".data, "E2".data, WVal.str (dojiStrip bp)⟩]

/-! ## Browser/page resources -/

/-- Browser-side resources of the process: identities of live browser
processes, open pages tagged with their owning browser, the service's
`this.browser` field, and a counter supplying fresh identities. -/
structure ResState where
  live : List ℕ
  pages : List (ℕ × ℕ)
  stored : Option ℕ
  nextId : ℕ
deriving DecidableEq, Repr

/-- The resource state at process start: no browser, no page,
`this.browser = null`. -/
def initRes : ResState := ⟨[], [], none, 0⟩

/-- Model of a successful `puppeteer.launch()`: a fresh browser process
starts. -/
def launchBrowser (s : ResState) : ResState × ℕ :=
  (⟨s.live ++ [s.nextId], s.pages, s.stored, s.nextId + 1⟩, s.nextId)

/-- Model of `getBrowser` on the success path: it launches a fresh
browser unconditionally (`this.browser = await puppeteer.launch(...)`)
and overwrites the stored handle. -/
def getBrowser (s : ResState) : ResState × ℕ :=
  let r := launchBrowser s
  (⟨r.1.live, r.1.pages, some r.2, r.1.nextId⟩, r.2)

/-- Model of a successful `browser.newPage()`. -/
def newPage (s : ResState) (b : ℕ) : ResState × ℕ :=
  (⟨s.live, s.pages ++ [(s.nextId, b)], s.stored, s.nextId + 1⟩, s.nextId)

/-- Model of `page.close()`. -/
def closePage (s : ResState) (p : ℕ) : ResState :=
  ⟨s.live, s.pages.filter (fun pr => pr.1 ≠ p), s.stored, s.nextId⟩

/-- Model of `browser.close()`: the process ends, and all pages belonging
to it close with it. -/
def closeBrowser (s : ResState) (b : ℕ) : ResState :=
  ⟨s.live.filter (fun x => x ≠ b), s.pages.filter (fun pr => pr.2 ≠ b),
    s.stored, s.nextId⟩

/-! ## USDT exchange-rate adapter (`crawlUSDTPrice`) -/

/-- Parsing stage of the `page.evaluate` extraction in `crawlUSDTPrice`
applied to the matched span's text:
`.replace(/[₫,]/g, '').replace('VND', '').trim().split('=')[1].trim()`
followed by the decimal scan of `Number(...)`.  A missing `'='` segment
makes the original code throw (`[1]` is `undefined`), which the caller's
`catch` turns into no value: modelled as `none`. -/
def usdtSpanParse (s : Str) : Option NumParts :=
  match ((jsTrim (removeFirst "VND".data
      (s.filter (fun c => c ≠ '₫' && c ≠ ',')))).splitOn '=').get? 1 with
  | none => none
  | some p => jsParse (jsTrim p)

/-- The numeric result of the `page.evaluate` extraction on one span
text (`none` = thrown/`NaN`). -/
def usdtSpanNumber (s : Str) : Option ℚ := (usdtSpanParse s).map partsVal

/-- The span selection of `crawlUSDTPrice`'s `page.evaluate`: the first
span whose text contains both `VND` and `₫`; if none matches the
callback returns `null`. -/
def usdtFindSpan (spans : List Str) : Option Str :=
  spans.find? (fun t => isSubstr "VND".data t && isSubstr ['₫'] t)

/-- The full `page.evaluate` result of `crawlUSDTPrice` over the page's
span texts. -/
def usdtEvaluate (spans : List Str) : Option ℚ :=
  match usdtFindSpan spans with
  | none => none
  | some t => usdtSpanNumber t

/-- External outcomes of one `crawlUSDTPrice` invocation: whether
`puppeteer.launch` succeeds, whether `browser.newPage` succeeds, and the
rendered page's span texts (`none` = navigation/wait threw). -/
structure UsdtEnv where
  launchOk : Bool
  newPageOk : Bool
  pageWork : Option (List Str)
deriving DecidableEq

/-- Model of `crawlUSDTPrice`.  `getBrowser` and `browser.newPage()` are
called before the `try` block, so when `newPage` throws, the `finally`
that closes page and browser never runs and the launched browser stays
alive.  On every path that enters the `try`, the `finally` closes the
page and the browser.  Returns the final resource state, the sheet
writes (a truthy price is written to `Detail!C9` via `updateUSDTCell`),
and the returned price (`none` = thrown or `null`/`NaN`). -/
def crawlUSDTPrice (env : UsdtEnv) (s : ResState) :
    ResState × List SheetWrite × Option ℚ :=
  if env.launchOk then
    let g := getBrowser s
    if env.newPageOk then
      let np := newPage g.1 g.2
      let res : List SheetWrite × Option ℚ :=
        match env.pageWork with
        | none => ([], none)
        | some spans =>
          match usdtEvaluate spans with
          | none => ([], none)
          | some q =>
            (if q = 0 then [] else [⟨"Detail".data, "C9".data, WVal.num q⟩],
              some q)
      (closeBrowser (closePage np.1 np.2) g.2, res)
    else (g.1, [], none)
  else (s, [], none)

/-! ## Binance ticker adapters (`crawlPAXGPrice`, `crawlBTCPrice`) -/

/-- A Binance ticker body: `{symbol, price}` with the price as a string. -/
structure BinanceResp where
  symbol : Str
  price : Str
deriving DecidableEq

/-- Model of `crawlPAXGPrice`: an absent response or body writes
nothing; otherwise `Number(response.data.price) * vndPrice` is written to
`Detail!C10` via `updatePaxGoldCell` when truthy (non-`NaN`, nonzero). -/
def crawlPAXGPrice (vndPrice : ℚ) (resp : Option (HttpResp BinanceResp)) :
    List SheetWrite :=
  match resp with
  | none => []
  | some r =>
    match r.data with
    | none => []
    | some d =>
      match jsNumber d.price with
      | none => []
      | some p =>
        if p * vndPrice = 0 then []
        else [⟨"Detail".data, "C10".data, WVal.num (p * vndPrice)⟩]

/-- Model of `crawlBTCPrice`: an absent response or body writes nothing;
otherwise `Number(response.data.price) * vndPrice` is written to
`Detail!C11` via `updateBTCCell` when truthy (non-`NaN`, nonzero). -/
def crawlBTCPrice (vndPrice : ℚ) (resp : Option (HttpResp BinanceResp)) :
    List SheetWrite :=
  match resp with
  | none => []
  | some r =>
    match r.data with
    | none => []
    | some d =>
      match jsNumber d.price with
      | none => []
      | some p =>
        if p * vndPrice = 0 then []
        else [⟨"Detail".data, "C11".data, WVal.num (p * vndPrice)⟩]

/-! ## Crypto job (`crawlBinancePrice`) and startup pass -/

/-- External outcomes feeding one `crawlBinancePrice` run. -/
structure BinanceEnv where
  usdt : UsdtEnv
  paxg : Option (HttpResp BinanceResp)
  btc : Option (HttpResp BinanceResp)
deriving DecidableEq

/-- Model of `crawlBinancePrice`: runs `crawlUSDTPrice` first; when the
returned rate is falsy (`undefined`/`null`/`NaN`/`0`, i.e. `none` or
`some 0` here) the dependent conversions are skipped; otherwise
`crawlPAXGPrice` and `crawlBTCPrice` run with that rate.  A throw inside
`crawlUSDTPrice` is caught here, which the total embedding already
reflects. -/
def crawlBinancePrice (env : BinanceEnv) (s : ResState) :
    ResState × List SheetWrite :=
  let u := crawlUSDTPrice env.usdt s
  match u.2.2 with
  | none => (u.1, u.2.1)
  | some q =>
    if q = 0 then (u.1, u.2.1)
    else (u.1, u.2.1 ++ crawlPAXGPrice q env.paxg ++ crawlBTCPrice q env.btc)

/-- External outcomes of one DOJI crawl: whether `puppeteer.launch`
succeeds (it is called inside the `try`), whether `newPage` succeeds, and
the rendered table rows (`none` = navigation or selector wait threw). -/
structure DojiEnv where
  launchOk : Bool
  newPageOk : Bool
  pageWork : Option (List DojiRow)
deriving DecidableEq

/-- Model of `crawlDojiHungThinhVuong9999GoldRingPrice`.  `launch` is
inside the `try` and assigned to a local variable, and the `finally`
closes the browser whenever it is non-null, so every acquired browser
(and with it every page) is closed on all exit paths. -/
def crawlDojiHungThinhVuong9999GoldRingPrice (env : DojiEnv) (s : ResState) :
    ResState × List SheetWrite :=
  if env.launchOk then
    let l := launchBrowser s
    if env.newPageOk then
      let np := newPage l.1 l.2
      let ws :=
        match env.pageWork with
        | none => []
        | some rows => dojiWrites rows
      (closeBrowser np.1 l.2, ws)
    else (closeBrowser l.1 l.2, [])
  else (s, [])

/-- External outcomes feeding one full startup pass. -/
structure SystemEnv where
  doji : DojiEnv
  etf : Option (HttpResp DnseData)
  binance : BinanceEnv
deriving DecidableEq

/-- Model of `onApplicationBootstrap`: the three jobs run sequentially,
each catching its own errors — DOJI gold, then the ETF, then the crypto
job. -/
def onApplicationBootstrap (env : SystemEnv) (s : ResState) :
    ResState × List SheetWrite :=
  let d := crawlDojiHungThinhVuong9999GoldRingPrice env.doji s
  let e := crawlE1VFVN30Price env.etf
  let b := crawlBinancePrice env.binance d.1
  (b.1, d.2 ++ e ++ b.2)


/-! ## Helper lemmas -/

theorem mem_of_mem_jsTrim {c : Char} {s : Str} (h : c ∈ jsTrim s) : c ∈ s := by
  unfold jsTrim at h
  rw [List.mem_reverse] at h
  have h1 := (List.dropWhile_sublist Char.isWhitespace).mem h
  rw [List.mem_reverse] at h1
  exact (List.dropWhile_sublist Char.isWhitespace).mem h1

theorem dojiWrites_cell (rows : List DojiRow) (w : SheetWrite)
    (h : w ∈ dojiWrites rows) : w.cell = "E2".data := by
  unfold dojiWrites at h
  rcases hf : findBuyPrice rows with _ | bp
  · simp [hf] at h
  · rw [hf] at h
    split at h
    · simp at h
    · simp at h
      rw [h.2]

theorem dojiJob_cell (env : DojiEnv) (s : ResState) (w : SheetWrite)
    (h : w ∈ (crawlDojiHungThinhVuong9999GoldRingPrice env s).2) :
    w.cell = "E2".data := by
  rcases env with ⟨lo, npo, pw⟩
  cases lo <;> cases npo <;>
    simp only [crawlDojiHungThinhVuong9999GoldRingPrice, Bool.false_eq_true,
      reduceIte] at h
  all_goals try exact absurd h (List.not_mem_nil w)
  rcases pw with _ | rows
  · exact absurd h (List.not_mem_nil w)
  · exact dojiWrites_cell rows w h

theorem etfJob_cell (resp : Option (HttpResp DnseData)) (w : SheetWrite)
    (h : w ∈ crawlE1VFVN30Price resp) : w.cell = "E18".data := by
  rcases resp with _ | ⟨_ | d⟩
  · simp [crawlE1VFVN30Price] at h
  · simp [crawlE1VFVN30Price] at h
  · rcases d with ⟨_ | cs⟩
    · simp [crawlE1VFVN30Price] at h
    · simp only [crawlE1VFVN30Price] at h
      split at h
      · simp at h
      · simp at h
        rw [h]

theorem usdt_writes_empty (e : UsdtEnv) (s : ResState)
    (h : (crawlUSDTPrice e s).2.2 = none ∨ (crawlUSDTPrice e s).2.2 = some 0) :
    (crawlUSDTPrice e s).2.1 = [] := by
  rcases e with ⟨lo, npo, pw⟩
  cases lo <;> cases npo <;> try rfl
  all_goals rcases pw with _ | spans
  all_goals try rfl
  all_goals rcases hv : usdtEvaluate spans with _ | q
  all_goals try simp [crawlUSDTPrice, hv]
  all_goals simp [crawlUSDTPrice, hv] at h
  all_goals simp [h]

/-- A decimal digit is not whitespace. -/
theorem digit_not_ws (c : Char) (h : c.isDigit = true) : c.isWhitespace = false := by
  by_contra hw
  rw [Bool.not_eq_false] at hw
  simp only [Char.isWhitespace, Bool.or_eq_true, decide_eq_true_eq] at hw
  rcases hw with ((e | e) | e) | e <;> rw [e] at h <;> exact absurd h (by decide)

/-- A decimal digit is none of the marker characters of the USDT span. -/
theorem digit_props (c : Char) (h : c.isDigit = true) :
    c ≠ '₫' ∧ c ≠ 'V' ∧ c ≠ '=' := by
  refine ⟨?_, ?_, ?_⟩ <;> intro e <;> rw [e] at h <;> exact absurd h (by decide)

/-- `dropWhile` keeps a list none of whose elements satisfy the test. -/
theorem dropWhile_all_false {p : Char → Bool} (l : Str) (h : ∀ x ∈ l, p x = false) :
    l.dropWhile p = l := by
  cases l with
  | nil => rfl
  | cons a t => simp [List.dropWhile_cons, h a (List.mem_cons_self a t)]

/-- `takeWhile` keeps a list all of whose elements satisfy the test. -/
theorem takeWhile_all_true {p : Char → Bool} (l : Str) (h : ∀ x ∈ l, p x = true) :
    l.takeWhile p = l := by
  induction l with
  | nil => rfl
  | cons a t ih =>
    simp [List.takeWhile_cons, h a (List.mem_cons_self a t),
      ih fun x hx => h x (List.mem_cons_of_mem a hx)]

/-- `dropWhile` drops a list all of whose elements satisfy the test. -/
theorem dropWhile_all_true {p : Char → Bool} (l : Str) (h : ∀ x ∈ l, p x = true) :
    l.dropWhile p = [] := by
  induction l with
  | nil => rfl
  | cons a t ih =>
    simp [List.dropWhile_cons, h a (List.mem_cons_self a t),
      ih fun x hx => h x (List.mem_cons_of_mem a hx)]

/-- `takeWhile` stops exactly at the first failing element. -/
theorem takeWhile_append_stop {p : Char → Bool} (l₁ : Str) (x : Char) (l₂ : Str)
    (h₁ : ∀ c ∈ l₁, p c = true) (hx : p x = false) :
    (l₁ ++ x :: l₂).takeWhile p = l₁ := by
  induction l₁ with
  | nil => simp [List.takeWhile_cons, hx]
  | cons a t ih =>
    simp [List.takeWhile_cons, h₁ a (List.mem_cons_self a t),
      ih fun c hc => h₁ c (List.mem_cons_of_mem a hc)]

/-- `dropWhile` drops exactly up to the first failing element. -/
theorem dropWhile_append_stop {p : Char → Bool} (l₁ : Str) (x : Char) (l₂ : Str)
    (h₁ : ∀ c ∈ l₁, p c = true) (hx : p x = false) :
    (l₁ ++ x :: l₂).dropWhile p = x :: l₂ := by
  induction l₁ with
  | nil => simp [List.dropWhile_cons, hx]
  | cons a t ih =>
    simp [List.dropWhile_cons, h₁ a (List.mem_cons_self a t),
      ih fun c hc => h₁ c (List.mem_cons_of_mem a hc)]

/-- `dropWhile` keeps an appended list whose front part is nonempty and
fails the test throughout. -/
theorem dropWhile_front_false {p : Char → Bool} (l₁ l₂ : Str) (h₁ : l₁ ≠ [])
    (h : ∀ x ∈ l₁, p x = false) : (l₁ ++ l₂).dropWhile p = l₁ ++ l₂ := by
  rcases l₁ with _ | ⟨a, t⟩
  · exact absurd rfl h₁
  · rw [List.cons_append, List.dropWhile_cons,
      if_neg (by simp [h a (List.mem_cons_self a t)])]

/-- Trimming a whitespace-free string changes nothing. -/
theorem jsTrim_all_nonws (l : Str) (h : ∀ x ∈ l, x.isWhitespace = false) :
    jsTrim l = l := by
  unfold jsTrim
  rw [dropWhile_all_false l h,
    dropWhile_all_false _ (fun x hx => h x (List.mem_reverse.mp hx)),
    List.reverse_reverse]

/-- `Number()` on a pure digit string reads the digits as an integer
(the empty string reads as 0, as in JavaScript). -/
theorem jsParse_digits (ds : Str) (h : ∀ c ∈ ds, c.isDigit = true) :
    jsParse ds = some ⟨false, digitsVal ds, 0, 0⟩ := by
  have ht : jsTrim ds = ds :=
    jsTrim_all_nonws ds fun x hx => digit_not_ws x (h x hx)
  cases ds with
  | nil => rfl
  | cons c cs =>
    have hc := h c (List.mem_cons_self c cs)
    have hc1 : c ≠ '-' := fun e => by rw [e] at hc; exact absurd hc (by decide)
    have hc2 : c ≠ '+' := fun e => by rw [e] at hc; exact absurd hc (by decide)
    unfold jsParse
    rw [ht]
    simp only [List.isEmpty_cons, Bool.false_eq_true, if_false, reduceIte,
      List.head?_cons, Option.some.injEq, List.tail_cons]
    rw [if_neg (by rintro (e | e) <;> [exact hc1 e; exact hc2 e])]
    rw [takeWhile_all_true (c :: cs) h, dropWhile_all_true (c :: cs) h]
    simp [decide_eq_false hc1]

/-- `Number()` on digits-dot-digits reads the dot as the decimal point. -/
theorem jsParse_decimal (a b : Str) (ha : a ≠ [])
    (hda : ∀ c ∈ a, c.isDigit = true) (hdb : ∀ c ∈ b, c.isDigit = true) :
    jsParse (a ++ '.' :: b) = some ⟨false, digitsVal a, digitsVal b, b.length⟩ := by
  have hnw : ∀ x ∈ a ++ '.' :: b, x.isWhitespace = false := by
    intro x hx
    rcases List.mem_append.mp hx with hm | hm
    · exact digit_not_ws x (hda x hm)
    · rcases List.mem_cons.mp hm with e | hm
      · rw [e]; decide
      · exact digit_not_ws x (hdb x hm)
  have ht : jsTrim (a ++ '.' :: b) = a ++ '.' :: b := jsTrim_all_nonws _ hnw
  rcases a with _ | ⟨c, cs⟩
  · exact absurd rfl ha
  · have hc := hda c (List.mem_cons_self c cs)
    have hc1 : c ≠ '-' := fun e => by rw [e] at hc; exact absurd hc (by decide)
    have hc2 : c ≠ '+' := fun e => by rw [e] at hc; exact absurd hc (by decide)
    unfold jsParse
    rw [ht]
    simp only [show ((c :: cs) ++ '.' :: b).isEmpty = false from rfl,
      show ((c :: cs) ++ '.' :: b).head? = some c from rfl,
      show ((c :: cs) ++ '.' :: b).tail = cs ++ '.' :: b from rfl,
      Bool.false_eq_true, if_false, reduceIte, Option.some.injEq]
    rw [if_neg (by rintro (e | e) <;> [exact hc1 e; exact hc2 e])]
    rw [takeWhile_append_stop (c :: cs) '.' b hda (by decide),
      dropWhile_append_stop (c :: cs) '.' b hda (by decide)]
    simp [decide_eq_false hc1, List.all_eq_true.mpr hdb]

/-- A single-occurrence `replace` passes over a front part that cannot
start a match. -/
theorem removeFirst_append (p₀ : Char) (pt l r : Str) (h : p₀ ∉ l) :
    removeFirst (p₀ :: pt) (l ++ r) = l ++ removeFirst (p₀ :: pt) r := by
  induction l with
  | nil => rfl
  | cons c t ih =>
    have hc : (p₀ == c) = false :=
      beq_eq_false_iff_ne.mpr fun e => h (e ▸ List.mem_cons_self c t)
    have ht : p₀ ∉ t := fun hm => h (List.mem_cons_of_mem c hm)
    rw [List.cons_append]
    simp only [removeFirst, List.isPrefixOf, hc, Bool.false_and,
      Bool.false_eq_true, if_false, reduceIte]
    rw [ih ht, List.cons_append]

/-- `split('=')` on a string with exactly one `'='` yields its two
sides. -/
theorem splitOn_middle (l₁ l₂ : Str) (h₁ : '=' ∉ l₁) (h₂ : '=' ∉ l₂) :
    List.splitOn '=' (l₁ ++ '=' :: l₂) = [l₁, l₂] := by
  unfold List.splitOn
  rw [List.splitOnP_first (fun x => x == '=') l₁
    (fun x hx => by simp only [beq_iff_eq]; exact fun e => h₁ (e ▸ hx)) '='
    (by simp) l₂]
  rw [List.splitOnP_eq_single (fun x => x == '=') l₂
    (fun x hx => by simp only [beq_iff_eq]; exact fun e => h₂ (e ▸ hx))]

/-- Trimming the USDT span after the `VND` removal: the surrounding
prefix survives and only the trailing space goes. -/
theorem jsTrim_span (X : Str) (hX : X ≠ []) (h : ∀ x ∈ X, x.isWhitespace = false) :
    jsTrim ("1 USDT = ".data ++ X ++ [' ']) = "1 USDT = ".data ++ X := by
  rcases X with _ | ⟨c, cs⟩
  · exact absurd rfl hX
  · unfold jsTrim
    rw [show ("1 USDT = ".data ++ (c :: cs)) ++ [' '] =
      '1' :: ((" USDT = ".data ++ (c :: cs)) ++ [' ']) from rfl]
    rw [List.dropWhile_cons, if_neg (by decide)]
    rw [show '1' :: ((" USDT = ".data ++ (c :: cs)) ++ [' ']) =
      ("1 USDT = ".data ++ (c :: cs)) ++ [' '] from rfl]
    rw [List.reverse_append]
    simp only [List.reverse_singleton, List.singleton_append]
    rw [List.dropWhile_cons, if_pos (by decide)]
    rw [List.reverse_append]
    rw [dropWhile_front_false ((c :: cs).reverse) ("1 USDT = ".data.reverse)
      (by simp) (fun x hx => h x (List.mem_reverse.mp hx))]
    rw [← List.reverse_append, List.reverse_reverse]

/-- The USDT extraction pipeline on a span carrying an arbitrary
digits-and-separators amount: it removes exactly the `₫` marker and the
commas and hands the rest to `Number()` — the dots survive. -/
theorem usdtSpanParse_span (X : Str)
    (hX : ∀ c ∈ X, c.isDigit = true ∨ c = '.' ∨ c = ',') :
    usdtSpanParse ("1 USDT = ₫".data ++ X ++ " VND".data) =
      jsParse (removeChar ',' X) := by
  have hX' : ∀ c ∈ removeChar ',' X, c.isDigit = true ∨ c = '.' := by
    intro c hc
    rw [removeChar, List.mem_filter, decide_eq_true_eq] at hc
    rcases hX c hc.1 with h | h | h
    · exact Or.inl h
    · exact Or.inr h
    · exact absurd h hc.2
  have hnws : ∀ c ∈ removeChar ',' X, c.isWhitespace = false := by
    intro c hc
    rcases hX' c hc with h | h
    · exact digit_not_ws c h
    · rw [h]; decide
  have hnV : 'V' ∉ removeChar ',' X := fun hm => by
    rcases hX' 'V' hm with h | h
    · exact absurd h (by decide)
    · exact absurd h (by decide)
  have hnE : '=' ∉ removeChar ',' X := fun hm => by
    rcases hX' '=' hm with h | h
    · exact absurd h (by decide)
    · exact absurd h (by decide)
  unfold usdtSpanParse
  have h1 : (("1 USDT = ₫".data ++ X) ++ " VND".data).filter
        (fun c => c ≠ '₫' && c ≠ ',') =
      ("1 USDT = ".data ++ removeChar ',' X) ++ " VND".data := by
    have hXf : X.filter (fun c => c ≠ '₫' && c ≠ ',') = removeChar ',' X := by
      rw [removeChar]
      apply List.filter_congr
      intro c hc
      rcases hX c hc with h | h | h
      · simp [(digit_props c h).1]
      · rw [h]; decide
      · rw [h]; decide
    rw [List.filter_append, List.filter_append, hXf,
      show "1 USDT = ₫".data.filter (fun c => c ≠ '₫' && c ≠ ',') =
        "1 USDT = ".data from by decide,
      show " VND".data.filter (fun c => c ≠ '₫' && c ≠ ',') =
        " VND".data from by decide]
  rw [h1]
  have hv : 'V' ∉ "1 USDT = ".data ++ removeChar ',' X := by
    rw [List.mem_append]
    rintro (h | h)
    · exact absurd h (by decide)
    · exact hnV h
  rw [show ("VND".data : Str) = 'V' :: "ND".data from rfl]
  rw [removeFirst_append 'V' "ND".data _ _ hv]
  rw [show removeFirst ('V' :: "ND".data) " VND".data = [' '] from by decide]
  rcases hxe : removeChar ',' X with _ | ⟨c, cs⟩
  · decide
  · have hnws' : ∀ x ∈ (c :: cs : Str), x.isWhitespace = false := hxe ▸ hnws
    have hnE' : '=' ∉ (c :: cs : Str) := hxe ▸ hnE
    rw [jsTrim_span (c :: cs) (by simp) hnws']
    rw [show "1 USDT = ".data ++ (c :: cs) = "1 USDT ".data ++ '=' :: ' ' :: (c :: cs)
      from rfl]
    rw [splitOn_middle "1 USDT ".data (' ' :: c :: cs) (by decide)
      (by
        intro hm
        rcases List.mem_cons.mp hm with e | hm2
        · exact absurd e (by decide)
        · exact hnE' hm2)]
    have h6 : jsTrim (' ' :: c :: cs) = c :: cs := by
      unfold jsTrim
      rw [List.dropWhile_cons, if_pos (by decide)]
      rw [dropWhile_all_false (c :: cs) hnws']
      rw [dropWhile_all_false _ (fun x hx => hnws' x (List.mem_reverse.mp hx))]
      rw [List.reverse_reverse]
    show jsParse (jsTrim (' ' :: c :: cs)) = jsParse (c :: cs)
    rw [h6]

/-! ## Claims -/

/-- Claim C3 counterexample: the unit-correction heuristic does not map
every below-threshold value v to exactly v × 1000 — the code rounds, so
v = 1/2000 yields 1 rather than 1/2. -/
theorem etf_unit_correction_cex : etfCorrect (1 / 2000) ≠ (1 / 2000 : ℚ) * 1000 := by
  norm_num [etfCorrect, mathRound]

/-- Claim C3 (amended): for every raw close-price value v, the heuristic
maps v to Math.round(v × 1000) when v < 1000 (for integral inputs such
as 36 this is exactly v × 1000, giving 36000), and leaves v unchanged
when v ≥ 1000. -/
theorem etf_unit_correction (q : ℚ) :
    (q < 1000 → etfCorrect q = ((mathRound (q * 1000) : ℤ) : ℚ)) ∧
    (1000 ≤ q → etfCorrect q = q) := by
  constructor
  · intro h
    simp [etfCorrect, h]
  · intro h
    simp [etfCorrect, not_lt.mpr h]

/-- Witness for `etf_unit_correction` at v = 36: the heuristic yields
Math.round(36 × 1000) = 36000. -/
theorem etf_unit_correction_witness :
    (36 : ℚ) < 1000 ∧ etfCorrect 36 = ((mathRound ((36 : ℚ) * 1000) : ℤ) : ℚ) ∧
      etfCorrect 36 = 36000 :=
  ⟨by norm_num, (etf_unit_correction 36).1 (by norm_num),
    by norm_num [etfCorrect, mathRound]⟩

/-- Claim C6 counterexample: two consecutive `getBrowser` calls with no
intervening close leave two live browser processes — `getBrowser` never
reuses the running browser. -/
theorem getBrowser_reuse_cex :
    (getBrowser (getBrowser initRes).1).1.live = [0, 1] ∧
    ¬(getBrowser (getBrowser initRes).1).1.live.length ≤ 1 := by
  decide

/-- Claim C6 (amended): every `getBrowser` call launches a fresh browser
process unconditionally and overwrites the stored handle, so consecutive
calls without an intervening close accumulate live browser processes
(the earlier ones are leaked). -/
theorem getBrowser_always_fresh (s : ResState)
    (h : ∀ x ∈ s.live, x < s.nextId) :
    (getBrowser s).2 ∉ s.live ∧
    (getBrowser s).1.live = s.live ++ [(getBrowser s).2] ∧
    (getBrowser s).1.stored = some (getBrowser s).2 := by
  refine ⟨fun hx => ?_, rfl, rfl⟩
  exact absurd (h _ hx) (lt_irrefl s.nextId)

/-- Witness for `getBrowser_always_fresh` at the initial state. -/
theorem getBrowser_always_fresh_witness :
    (∀ x ∈ initRes.live, x < initRes.nextId) ∧
    (getBrowser initRes).2 ∉ initRes.live ∧
    (getBrowser initRes).1.live = initRes.live ++ [(getBrowser initRes).2] ∧
    (getBrowser initRes).1.stored = some (getBrowser initRes).2 :=
  ⟨by decide, getBrowser_always_fresh initRes (by decide)⟩

/-- Claim C8 counterexample: the first label-matching row is not always
authoritative — a matching row with fewer than 3 cells is skipped and a
later matching row supplies the price, where the claim's reading
(`findBuyPriceClaimed`) extracts nothing. -/
theorem doji_first_match_cex :
    findBuyPrice
        [⟨"Nhẫn Tròn 9999".data, ["x".data]⟩,
          ⟨"Nhẫn Tròn 9999".data, ["p".data, "q".data, "r".data]⟩] =
      some "q".data ∧
    findBuyPriceClaimed
        [⟨"Nhẫn Tròn 9999".data, ["x".data]⟩,
          ⟨"Nhẫn Tròn 9999".data, ["p".data, "q".data, "r".data]⟩] =
      none := by
  decide

/-- Claim C8 (amended): label matching is substring-based over the two
accepted variants, and the first row in document order that both matches
a label and has at least 3 cells is authoritative — its second cell's
trimmed text is extracted and all later rows are ignored; matching rows
with fewer than 3 cells are skipped. -/
theorem doji_first_match (rows : List DojiRow) :
    findBuyPrice rows =
      (rows.find? (fun r => rowMatches r && decide (3 ≤ r.cells.length))).bind
        (fun r => (r.cells.get? 1).map jsTrim) := by
  induction rows with
  | nil => rfl
  | cons r rs ih =>
    simp only [findBuyPrice, List.find?_cons]
    rcases hb : rowMatches r && decide (3 ≤ r.cells.length)
    · simp [hb, ih]
    · simp [hb]

/-- Claim C10: every value sent to the sink has each '.' replaced by ','
and is trimmed before the `setCell` call; a dot-free value is written
unchanged apart from trimming, the fractional "1234.5" is published as
"1234,5", and no published value ever contains '.'. -/
theorem sink_value_formatting :
    (∀ sheet cell v : Str, '.' ∉ v →
      updateSheetCell sheet cell v = ⟨sheet, cell, WVal.str (jsTrim v)⟩) ∧
    updateSheetCell "Detail".data "C11".data "1234.5".data =
      ⟨"Detail".data, "C11".data, WVal.str "1234,5".data⟩ ∧
    (∀ v : Str, '.' ∉ sinkFormat v) := by
  refine ⟨?_, by decide, ?_⟩
  · intro sheet cell v hv
    unfold updateSheetCell sinkFormat
    have hm : v.map (fun c => if c = '.' then ',' else c) = v := by
      have := List.map_congr_left (l := v)
        (f := fun c => if c = '.' then ',' else c) (g := id) ?_
      · simpa using this
      · intro a ha
        have : a ≠ '.' := fun hc => hv (hc ▸ ha)
        simp [this]
    rw [hm]
  · intro v h
    have h1 := mem_of_mem_jsTrim h
    rw [List.mem_map] at h1
    rcases h1 with ⟨c, _, hc⟩
    split at hc
    · exact absurd hc (by decide)
    · exact absurd hc (by assumption)

/-- Witness for `sink_value_formatting` on the dot-free value "36000". -/
theorem sink_value_formatting_witness :
    '.' ∉ "36000".data ∧
    updateSheetCell "Detail".data "E18".data "36000".data =
      ⟨"Detail".data, "E18".data, WVal.str (jsTrim "36000".data)⟩ :=
  ⟨by decide, sink_value_formatting.1 _ _ _ (by decide)⟩

/-- Claim C4: for every non-empty close series the ETF adapter selects
the last element as the current price and writes it once to Detail!E18;
for the series [35990, 36010, 36050] the written value is 36050. -/
theorem etf_selects_last_close (cs : List ℚ) (h : cs ≠ []) :
    crawlE1VFVN30Price (some ⟨some ⟨some cs⟩⟩) =
      [⟨"Detail".data, "E18".data, WVal.num (etfCorrect (cs.getLast h))⟩] ∧
    crawlE1VFVN30Price (some ⟨some ⟨some [35990, 36010, 36050]⟩⟩) =
      [⟨"Detail".data, "E18".data, WVal.num 36050⟩] := by
  constructor
  · simp only [crawlE1VFVN30Price, List.isEmpty_eq_false.mpr h, if_false,
      Bool.false_eq_true, reduceIte]
    rw [List.getLast?_eq_getLast cs h]
    rfl
  · have hl : (([35990, 36010, 36050] : List ℚ).getLast?.getD 0) = 36050 := rfl
    have hc : etfCorrect 36050 = 36050 := by norm_num [etfCorrect]
    simp [crawlE1VFVN30Price, hl, hc]

/-- Witness for `etf_selects_last_close` at the series of scenario A. -/
theorem etf_selects_last_close_witness :
    ([35990, 36010, 36050] : List ℚ) ≠ [] ∧
    crawlE1VFVN30Price (some ⟨some ⟨some [35990, 36010, 36050]⟩⟩) =
      [⟨"Detail".data, "E18".data,
        WVal.num (etfCorrect (([35990, 36010, 36050] : List ℚ).getLast (by simp)))⟩] :=
  ⟨by simp, (etf_selects_last_close [35990, 36010, 36050] (by simp)).1⟩

/-- Claim C9: a degenerate DNSE response (absent response, absent body,
absent or empty close series) produces no sink write from the ETF
adapter, and the startup pass continues with the remaining jobs. -/
theorem etf_empty_response_no_write (env : SystemEnv) (s : ResState)
    (h : dnseDegenerate env.etf = true) :
    crawlE1VFVN30Price env.etf = [] ∧
    (onApplicationBootstrap env s).2 =
      (crawlDojiHungThinhVuong9999GoldRingPrice env.doji s).2 ++
        (crawlBinancePrice env.binance
          (crawlDojiHungThinhVuong9999GoldRingPrice env.doji s).1).2 := by
  have h1 : crawlE1VFVN30Price env.etf = [] := by
    rcases he : env.etf with _ | r
    · rfl
    · rcases hd : r.data with _ | d
      · simp [crawlE1VFVN30Price, hd]
      · rcases hcs : d.c with _ | cs
        · simp [crawlE1VFVN30Price, hd, hcs]
        · rw [he] at h
          simp only [dnseDegenerate, hd, hcs] at h
          simp [crawlE1VFVN30Price, hd, hcs, h]
  refine ⟨h1, ?_⟩
  simp only [onApplicationBootstrap]
  rw [h1]
  simp

/-- Witness for `etf_empty_response_no_write`: an absent response. -/
theorem etf_empty_response_no_write_witness :
    dnseDegenerate ((⟨⟨false, true, none⟩, none,
        ⟨⟨false, true, none⟩, none, none⟩⟩ : SystemEnv)).etf = true ∧
    crawlE1VFVN30Price ((⟨⟨false, true, none⟩, none,
        ⟨⟨false, true, none⟩, none, none⟩⟩ : SystemEnv)).etf = [] :=
  ⟨rfl, (etf_empty_response_no_write
    ⟨⟨false, true, none⟩, none, ⟨⟨false, true, none⟩, none, none⟩⟩ initRes rfl).1⟩

/-- Claim C5 counterexample: a numeric price string of "0" with a valid
prior rate produces no BTC write at all — the product 0 is falsy and the
code skips the update, where the claim requires the product written. -/
theorem btc_zero_price_cex :
    jsNumber "0".data = some 0 ∧
    crawlBTCPrice 25500 (some ⟨some ⟨"BTCUSDT".data, "0".data⟩⟩) = [] := by
  have hp : jsParse "0".data = some ⟨false, 0, 0, 0⟩ := by decide
  have h0 : jsNumber "0".data = some 0 := by
    rw [jsNumber, hp]
    norm_num [partsVal]
  exact ⟨h0, by simp [crawlBTCPrice, h0]⟩

/-- Claim C5 (amended): for every ticker response with a numeric price
string and every prior rate whose product with the price is nonzero, the
BTC conversion writes the product price × rate to Detail!C11; for
{symbol: BTCUSDT, price: "65000.5"} and rate 25500 the value written is
65000.5 × 25500 = 1657512750.  A zero product is falsy in JavaScript and
is not written. -/
theorem btc_conversion_writes_product :
    (∀ (rate p : ℚ) (sym pr : Str), jsNumber pr = some p → p * rate ≠ 0 →
      crawlBTCPrice rate (some ⟨some ⟨sym, pr⟩⟩) =
        [⟨"Detail".data, "C11".data, WVal.num (p * rate)⟩]) ∧
    crawlBTCPrice 25500 (some ⟨some ⟨"BTCUSDT".data, "65000.5".data⟩⟩) =
      [⟨"Detail".data, "C11".data, WVal.num 1657512750⟩] := by
  have hmain : ∀ (rate p : ℚ) (sym pr : Str), jsNumber pr = some p → p * rate ≠ 0 →
      crawlBTCPrice rate (some ⟨some ⟨sym, pr⟩⟩) =
        [⟨"Detail".data, "C11".data, WVal.num (p * rate)⟩] := by
    intro rate p sym pr hp hnz
    simp [crawlBTCPrice, hp, hnz]
  refine ⟨hmain, ?_⟩
  have hp : jsParse "65000.5".data = some ⟨false, 65000, 5, 1⟩ := by decide
  have h1 : jsNumber "65000.5".data = some (130001 / 2) := by
    rw [jsNumber, hp]
    norm_num [partsVal]
  rw [hmain 25500 (130001 / 2) "BTCUSDT".data "65000.5".data h1 (by norm_num)]
  norm_num

/-- Witness for `btc_conversion_writes_product` at scenario B. -/
theorem btc_conversion_writes_product_witness :
    (jsNumber "65000.5".data = some (130001 / 2) ∧
      (130001 / 2 : ℚ) * 25500 ≠ 0) ∧
    crawlBTCPrice 25500 (some ⟨some ⟨"BTCUSDT".data, "65000.5".data⟩⟩) =
      [⟨"Detail".data, "C11".data, WVal.num ((130001 / 2 : ℚ) * 25500)⟩] := by
  have hp : jsParse "65000.5".data = some ⟨false, 65000, 5, 1⟩ := by decide
  have h1 : jsNumber "65000.5".data = some (130001 / 2) := by
    rw [jsNumber, hp]
    norm_num [partsVal]
  exact ⟨⟨h1, by norm_num⟩,
    btc_conversion_writes_product.1 25500 (130001 / 2) "BTCUSDT".data
      "65000.5".data h1 (by norm_num)⟩

/-- Claim C2 counterexample: the USDT page adapter does not strip '.' —
it reads "36.000" as the decimal 36, while the separator-free "36000"
reads as 36000, so the two parses differ where the claim requires them
equal. -/
theorem usdt_dot_not_stripped_cex :
    usdtSpanNumber "1 USDT = ₫36.000 VND".data = some 36 ∧
    usdtSpanNumber "1 USDT = ₫36000 VND".data = some 36000 ∧
    (36 : ℚ) ≠ 36000 := by
  have h1 : usdtSpanParse "1 USDT = ₫36.000 VND".data = some ⟨false, 36, 0, 3⟩ := by
    decide
  have h2 : usdtSpanParse "1 USDT = ₫36000 VND".data =
      some ⟨false, 36000, 0, 0⟩ := by decide
  refine ⟨?_, ?_, by norm_num⟩
  · rw [usdtSpanNumber, h1]
    norm_num [partsVal]
  · rw [usdtSpanNumber, h2]
    norm_num [partsVal]

/-- Claim C2 (amended): the DOJI adapter strips both '.' and ',' before
publishing, so any digits-and-separators string reduces to its digit
sequence.  The USDT page adapter strips only '₫' and ',' from the span
text and treats '.' as a decimal point: for every digits-and-separators
amount carried by the span, the extracted number is Number() of the
amount with only the commas removed; hence every comma-grouped amount
parses to the separator-free integer, while every dot-grouped amount
a.b parses as the decimal a + b/10^len(b) ("36.000" gives 36, not
36000). -/
theorem separator_stripping_per_adapter :
    (∀ s : Str, (∀ c ∈ s, c.isDigit ∨ c = '.' ∨ c = ',') →
      dojiStrip s = s.filter Char.isDigit) ∧
    (∀ X : Str, (∀ c ∈ X, c.isDigit ∨ c = '.' ∨ c = ',') →
      usdtSpanNumber ("1 USDT = ₫".data ++ X ++ " VND".data) =
        jsNumber (removeChar ',' X)) ∧
    (∀ X : Str, (∀ c ∈ X, c.isDigit ∨ c = ',') →
      usdtSpanNumber ("1 USDT = ₫".data ++ X ++ " VND".data) =
        some ((digitsVal (X.filter Char.isDigit) : ℚ))) ∧
    (∀ a b : Str, a ≠ [] → (∀ c ∈ a, c.isDigit) → (∀ c ∈ b, c.isDigit) →
      usdtSpanNumber ("1 USDT = ₫".data ++ (a ++ '.' :: b) ++ " VND".data) =
        some ((digitsVal a : ℚ) + (digitsVal b : ℚ) / 10 ^ b.length)) := by
  refine ⟨?_, ?_, ?_, ?_⟩
  · intro s hs
    unfold dojiStrip removeChar
    rw [List.filter_filter]
    apply List.filter_congr
    intro c hc
    rcases hs c hc with h | h | h
    · have h1 : c ≠ '.' := fun e => by
        rw [e] at h
        exact absurd h (by decide)
      have h2 : c ≠ ',' := fun e => by
        rw [e] at h
        exact absurd h (by decide)
      simp [h1, h2, h]
    · rw [h]
      decide
    · rw [h]
      decide
  · intro X hX
    unfold usdtSpanNumber jsNumber
    rw [usdtSpanParse_span X hX]
  · intro X hX
    have hX3 : ∀ c ∈ X, c.isDigit = true ∨ c = '.' ∨ c = ',' := fun c hc =>
      (hX c hc).elim Or.inl fun e => Or.inr (Or.inr e)
    unfold usdtSpanNumber
    rw [usdtSpanParse_span X hX3]
    have hrm : removeChar ',' X = X.filter Char.isDigit := by
      rw [removeChar]
      apply List.filter_congr
      intro c hc
      rcases hX c hc with h | h
      · have hne : c ≠ ',' := fun e => by rw [e] at h; exact absurd h (by decide)
        simp [hne, h]
      · rw [h]; decide
    rw [hrm, jsParse_digits _ (fun c hc => List.of_mem_filter hc)]
    simp [partsVal]
  · intro a b ha hda hdb
    have hX4 : ∀ c ∈ a ++ '.' :: b, c.isDigit = true ∨ c = '.' := by
      intro c hc
      rcases List.mem_append.mp hc with hm | hm
      · exact Or.inl (hda c hm)
      · rcases List.mem_cons.mp hm with e | hm2
        · exact Or.inr e
        · exact Or.inl (hdb c hm2)
    unfold usdtSpanNumber
    rw [usdtSpanParse_span _ (fun c hc =>
      (hX4 c hc).elim Or.inl fun e => Or.inr (Or.inl e))]
    have hrm : removeChar ',' (a ++ '.' :: b) = a ++ '.' :: b := by
      rw [removeChar]
      apply List.filter_eq_self.mpr
      intro c hc
      apply decide_eq_true
      rcases hX4 c hc with h | h
      · exact fun e => by rw [e] at h; exact absurd h (by decide)
      · exact fun e => by rw [h] at e; exact absurd e (by decide)
    rw [hrm, jsParse_decimal a b ha hda hdb]
    simp [partsVal]

/-- Witness for `separator_stripping_per_adapter`: each conjunct applied
at a concrete grouped amount — "36.000" for the DOJI adapter and the
pipeline, "36,000" for the comma-grouped case, "36"/"000" around the dot
for the decimal case. -/
theorem separator_stripping_per_adapter_witness :
    ((∀ c ∈ "36.000".data, c.isDigit ∨ c = '.' ∨ c = ',') ∧
      dojiStrip "36.000".data = "36.000".data.filter Char.isDigit) ∧
    ((∀ c ∈ "36.000".data, c.isDigit ∨ c = '.' ∨ c = ',') ∧
      usdtSpanNumber ("1 USDT = ₫".data ++ "36.000".data ++ " VND".data) =
        jsNumber (removeChar ',' "36.000".data)) ∧
    ((∀ c ∈ "36,000".data, c.isDigit ∨ c = ',') ∧
      usdtSpanNumber ("1 USDT = ₫".data ++ "36,000".data ++ " VND".data) =
        some ((digitsVal ("36,000".data.filter Char.isDigit) : ℚ))) ∧
    (("36".data ≠ [] ∧ (∀ c ∈ "36".data, c.isDigit) ∧
        (∀ c ∈ "000".data, c.isDigit)) ∧
      usdtSpanNumber ("1 USDT = ₫".data ++ ("36".data ++ '.' :: "000".data) ++
          " VND".data) =
        some ((digitsVal "36".data : ℚ) +
          (digitsVal "000".data : ℚ) / 10 ^ "000".data.length)) :=
  ⟨⟨by decide, separator_stripping_per_adapter.1 "36.000".data (by decide)⟩,
    ⟨by decide, separator_stripping_per_adapter.2.1 "36.000".data (by decide)⟩,
    ⟨by decide, separator_stripping_per_adapter.2.2.1 "36,000".data (by decide)⟩,
    ⟨⟨by decide, by decide, by decide⟩,
      separator_stripping_per_adapter.2.2.2 "36".data "000".data (by decide)
        (by decide) (by decide)⟩⟩

/-- Claim C7 (code bug): in `crawlUSDTPrice` the browser is acquired
before the protecting block, so when `browser.newPage()` fails the
cleanup never runs: starting from no live browser, the invocation ends
with the browser it launched still alive. -/
theorem usdt_browser_leak_on_newPage_failure :
    initRes.live = [] ∧
    (crawlUSDTPrice ⟨true, false, none⟩ initRes).1.live = [0] := by
  decide

/-- Claim C1: when the exchange-rate fetch yields no usable rate (thrown,
null, NaN or zero), the crypto run writes nothing beyond its own
(empty) USDT phase — in particular nothing to the PAXG (C10) or BTC
(C11) cells — and the startup pass still consists of exactly the gold
and ETF jobs' writes. -/
theorem rate_failure_isolation (env : SystemEnv) (s : ResState)
    (h : (crawlUSDTPrice env.binance.usdt
        (crawlDojiHungThinhVuong9999GoldRingPrice env.doji s).1).2.2 = none ∨
      (crawlUSDTPrice env.binance.usdt
        (crawlDojiHungThinhVuong9999GoldRingPrice env.doji s).1).2.2 = some 0) :
    (onApplicationBootstrap env s).2 =
      (crawlDojiHungThinhVuong9999GoldRingPrice env.doji s).2 ++
        crawlE1VFVN30Price env.etf ∧
    ∀ w ∈ (onApplicationBootstrap env s).2,
      w.cell ≠ "C10".data ∧ w.cell ≠ "C11".data := by
  set d := crawlDojiHungThinhVuong9999GoldRingPrice env.doji s with hd
  have hw : (crawlUSDTPrice env.binance.usdt d.1).2.1 = [] :=
    usdt_writes_empty _ _ h
  have hb : (crawlBinancePrice env.binance d.1).2 = [] := by
    simp only [crawlBinancePrice]
    rcases h with h | h
    · simp [h, hw]
    · simp [h, hw]
  have hboot : (onApplicationBootstrap env s).2 =
      d.2 ++ crawlE1VFVN30Price env.etf := by
    simp only [onApplicationBootstrap]
    rw [← hd, hb]
    simp
  refine ⟨hboot, ?_⟩
  intro w hm
  rw [hboot] at hm
  rcases List.mem_append.mp hm with hm1 | hm1
  · rw [dojiJob_cell env.doji s w hm1]
    exact ⟨by decide, by decide⟩
  · rw [etfJob_cell env.etf w hm1]
    exact ⟨by decide, by decide⟩

/-- Witness for `rate_failure_isolation`: a run whose USDT browser
launch fails. -/
theorem rate_failure_isolation_witness :
    ((crawlUSDTPrice (⟨⟨false, true, none⟩, none, none⟩ : BinanceEnv).usdt
        (crawlDojiHungThinhVuong9999GoldRingPrice ⟨false, true, none⟩
          initRes).1).2.2 = none) ∧
    (onApplicationBootstrap
        ⟨⟨false, true, none⟩, none, ⟨⟨false, true, none⟩, none, none⟩⟩
        initRes).2 =
      (crawlDojiHungThinhVuong9999GoldRingPrice ⟨false, true, none⟩
          initRes).2 ++
        crawlE1VFVN30Price none :=
  ⟨rfl, (rate_failure_isolation
    ⟨⟨false, true, none⟩, none, ⟨⟨false, true, none⟩, none, none⟩⟩
    initRes (Or.inl rfl)).1⟩
